import Mathlib

/-!
# Verification of the ferritebar Wayland watcher core

A shallow embedding of the two Wayland protocol watchers of the ferritebar
status bar: the foreign-toplevel (taskbar) watcher in
`src/modules/taskbar.rs` and the workspace watcher in
`src/modules/workspaces.rs`.  Both watchers keep an in-memory registry of
protocol objects, accumulate partial attribute events into pending state,
and emit batched results to the UI thread over bounded tokio channels when
a protocol-level Done marker arrives.

The embedding models:
* the byte-level parsing of wire bitmask/coordinate arrays
  (`parse_u32_array`, the inline state parsing of the taskbar dispatch);
* the per-object registries and their event dispatch as pure step
  functions (`Taskbar.dispatch`, `Workspaces.dispatch`);
* the snapshot emitter of the workspace watcher (`Workspaces.snapshot`,
  `Workspaces.emit_snapshot`), including grouping, the coordinate/serial
  sort, index numbering and the soft-delete purge;
* the request bridge that turns UI commands into protocol calls
  (`Taskbar.process_request`, `Workspaces.process_requests`);
* the channel send behaviour (`Channel.blocking_send` models the
  documented semantics of tokio's bounded `Sender::blocking_send`, which
  is what both watchers call; `Channel.spec_best_effort_send` is a second
  model following the specification's words, for comparison);
* the startup/bind outcome of each watcher thread
  (`Taskbar.watcher_outcome`, `Workspaces.watcher_outcome`).

Machine integers are modelled as `Nat` (the protocol values involved are
small and no arithmetic here can overflow a `u32`/`u64`; wire bytes are
truncated with `% 256` where they are combined into words).  Opaque
protocol handles are modelled as `Nat`, used only for equality lookup,
exactly as in the source.
-/

namespace Ferritebar

/-! ## Generic list helpers

The Rust code locates an entry by `iter().position(...)` and then mutates
or removes the element at that index.  `updateFirst` and `removeFirst`
capture that pattern: they act on the first element matching the
predicate and leave the list unchanged when no element matches. -/

/-- Update the first element satisfying `p` (the `position` + index-assign
pattern of the source); identity when no element matches. -/
def updateFirst (p : α → Bool) (f : α → α) : List α → List α
  | [] => []
  | x :: xs => if p x then f x :: xs else x :: updateFirst p f xs

/-- Remove the first element satisfying `p` (the `position` + `remove(idx)`
pattern of the source); identity when no element matches. -/
def removeFirst (p : α → Bool) : List α → List α
  | [] => []
  | x :: xs => if p x then xs else x :: removeFirst p xs

/-! ## Wire byte parsing -/

/-- `u32::from_le_bytes` on four wire bytes.  Wire bytes are `u8`; the
`% 256` keeps the model faithful on arbitrary `Nat` inputs.  The
workspace watcher uses `u32::from_ne_bytes`, which coincides with
little-endian on the compiled targets. -/
def u32_from_le_bytes (b0 b1 b2 b3 : Nat) : Nat :=
  b0 % 256 + 256 * (b1 % 256) + 65536 * (b2 % 256) + 16777216 * (b3 % 256)

/-- `parse_u32_array` (workspaces.rs): walk the buffer while `idx + 4 ≤ len`,
reading one 4-byte word per step; a trailing partial word (fewer than 4
remaining bytes) is ignored. -/
def parse_u32_array : List Nat → List Nat
  | b0 :: b1 :: b2 :: b3 :: rest => u32_from_le_bytes b0 b1 b2 b3 :: parse_u32_array rest
  | _ => []

/-! ## Taskbar (foreign-toplevel) watcher, `src/modules/taskbar.rs` -/

namespace Taskbar

/-- `ToplevelInfo`: the UI-facing value describing one window. -/
structure ToplevelInfo where
  id : Nat
  app_id : String
  title : String
  focused : Bool
  deriving DecidableEq

/-- `ToplevelEvent`: events from the Wayland thread to GTK. -/
inductive ToplevelEvent where
  | New (info : ToplevelInfo)
  | Update (info : ToplevelInfo)
  | Remove (id : Nat)
  deriving DecidableEq

/-- `ToplevelRequest`: requests from GTK to the Wayland thread. -/
inductive ToplevelRequest where
  | Activate (id : Nat)
  | Close (id : Nat)
  deriving DecidableEq

/-- `HandleState`: per-toplevel registry entry with pending state. -/
structure HandleState where
  id : Nat
  handle : Nat
  pending_title : String
  pending_app_id : String
  pending_focused : Bool
  initial_done : Bool
  deriving DecidableEq

/-- `WaylandState` of the toplevel watcher (channel endpoints omitted:
emitted events are returned by the step function instead). -/
structure WaylandState where
  handles : List HandleState
  seat : Option Nat
  next_id : Nat
  deriving DecidableEq

/-- `STATE_ACTIVATED` bit value of the foreign-toplevel state array. -/
def STATE_ACTIVATED : Nat := 2

/-- The inline state-array parsing of the taskbar `State` arm: when the
buffer holds at least one complete word, scan the `len / 4` complete
little-endian words for `STATE_ACTIVATED`; shorter buffers give `false`.
The word sequence scanned is exactly `parse_u32_array` of the buffer
(complete words only, trailing bytes ignored). -/
def toplevel_state_focused (wl_state : List Nat) : Bool :=
  if 4 ≤ wl_state.length then
    (parse_u32_array wl_state).any (fun w => w == STATE_ACTIVATED)
  else
    false

/-- Wire events of one toplevel handle (the
`Dispatch<ZwlrForeignToplevelHandleV1>` arms the source handles). -/
inductive HandleEvent where
  | title (t : String)
  | appId (a : String)
  | state (bytes : List Nat)
  | done
  | closed
  deriving DecidableEq

/-- Wire events reaching the taskbar watcher. -/
inductive WireEvent where
  | handleEv (handle : Nat) (e : HandleEvent)
  | managerToplevel (handle : Nat)
  | managerFinished
  deriving DecidableEq

/-- The `Dispatch<ZwlrForeignToplevelHandleV1>` event handler as a step
function: returns the new registry state and the events the handler
sends on the outbound channel. -/
def dispatch_handle_event (s : WaylandState) (h : Nat) (e : HandleEvent) :
    WaylandState × List ToplevelEvent :=
  match e with
  | .title t =>
    match s.handles.find? (fun x => x.handle == h) with
    | some _ =>
      let handles' := updateFirst (fun x => x.handle == h)
        (fun x => { x with pending_title := t }) s.handles
      ({ s with handles := handles' }, [])
    | none =>
      let fresh : HandleState :=
        { id := s.next_id, handle := h, pending_title := t,
          pending_app_id := "", pending_focused := false, initial_done := false }
      ({ s with handles := s.handles ++ [fresh], next_id := s.next_id + 1 }, [])
  | .appId a =>
    match s.handles.find? (fun x => x.handle == h) with
    | some _ =>
      let handles' := updateFirst (fun x => x.handle == h)
        (fun x => { x with pending_app_id := a }) s.handles
      ({ s with handles := handles' }, [])
    | none =>
      let fresh : HandleState :=
        { id := s.next_id, handle := h, pending_title := "",
          pending_app_id := a, pending_focused := false, initial_done := false }
      ({ s with handles := s.handles ++ [fresh], next_id := s.next_id + 1 }, [])
  | .state bytes =>
    let handles' := updateFirst (fun x => x.handle == h)
      (fun x => { x with pending_focused := toplevel_state_focused bytes }) s.handles
    ({ s with handles := handles' }, [])
  | .done =>
    match s.handles.find? (fun x => x.handle == h) with
    | none => (s, [])
    | some hs =>
      let info : ToplevelInfo :=
        { id := hs.id, app_id := hs.pending_app_id,
          title := hs.pending_title, focused := hs.pending_focused }
      if hs.initial_done then
        (s, [ToplevelEvent.Update info])
      else if info.app_id.isEmpty then
        -- Skip empty app_id (XWayland dialogs)
        (s, [])
      else
        let handles' := updateFirst (fun x => x.handle == h)
          (fun x => { x with initial_done := true }) s.handles
        ({ s with handles := handles' }, [ToplevelEvent.New info])
  | .closed =>
    match s.handles.find? (fun x => x.handle == h) with
    | none => (s, [])
    | some hs =>
      ({ s with handles := removeFirst (fun x => x.handle == h) s.handles },
       [ToplevelEvent.Remove hs.id])

/-- Full taskbar dispatch: manager `Toplevel` announcements and manager
`Finished` only log in the source; they change no registry state. -/
def dispatch (s : WaylandState) (w : WireEvent) : WaylandState × List ToplevelEvent :=
  match w with
  | .handleEv h e => dispatch_handle_event s h e
  | .managerToplevel _ => (s, [])
  | .managerFinished => (s, [])

/-- Watcher state right after a successful bind, as built by
`run_toplevel_watcher`. -/
def initial (seat : Nat) : WaylandState :=
  { handles := [], seat := some seat, next_id := 1 }

/-- Run a buffered sequence of wire events from the freshly-bound state,
collecting every event sent on the outbound channel in order. -/
def run (events : List WireEvent) : WaylandState × List ToplevelEvent :=
  events.foldl (fun acc w =>
    let r := dispatch acc.1 w
    (r.1, acc.2 ++ r.2)) (initial 0, [])

/-- Protocol requests the watcher issues to the compositor. -/
inductive ProtocolCall where
  | activate (handle : Nat) (seat : Nat)
  | close (handle : Nat)
  deriving DecidableEq

/-- The request-drain arms of `run_toplevel_watcher`: `Activate` resolves
the internal id and calls `activate(seat)` when a seat is bound; `Close`
resolves the internal id and calls `close()`.  Unknown ids are no-ops.
The source tracks no capability bitmask for toplevel handles. -/
def process_request (s : WaylandState) (r : ToplevelRequest) : List ProtocolCall :=
  match r with
  | .Activate id =>
    match s.handles.find? (fun x => x.id == id) with
    | some hs =>
      match s.seat with
      | some seat => [ProtocolCall.activate hs.handle seat]
      | none => []
    | none => []
  | .Close id =>
    match s.handles.find? (fun x => x.id == id) with
    | some hs => [ProtocolCall.close hs.handle]
    | none => []

/-- Startup outcome of `run_toplevel_watcher`: both `globals.bind` calls
use `?`, so a failed bind returns the error (logged by the spawn wrapper)
with no event sent; `ToplevelEvent` has no unavailable variant at all.
On success the watcher dispatches wire events until the process ends. -/
def watcher_outcome (manager_bound seat_bound : Bool) (events : List WireEvent) :
    List ToplevelEvent × Except String Unit :=
  if manager_bound then
    if seat_bound then
      ((run events).2, Except.ok ())
    else
      ([], Except.error "wl_seat bind failed")
  else
    ([], Except.error "zwlr_foreign_toplevel_manager_v1 bind failed")

end Taskbar

/-! ## Workspace watcher, `src/modules/workspaces.rs` -/

namespace Workspaces

/-- `WorkspaceInfo`: the UI-facing value describing one workspace. -/
structure WorkspaceInfo where
  id : Nat
  name : String
  index : Nat
  group : Nat
  active : Bool
  urgent : Bool
  hidden : Bool
  deriving DecidableEq

/-- `WorkspaceEvent`: events from the Wayland thread to GTK. -/
inductive WorkspaceEvent where
  | Snapshot (entries : List WorkspaceInfo)
  | Unavailable (reason : String)
  deriving DecidableEq

/-- `WorkspaceRequest`: requests from GTK to the Wayland thread. -/
inductive WorkspaceRequest where
  | Activate (id : Nat)
  deriving DecidableEq

/-- `WorkspaceState`: per-workspace registry entry. -/
structure WorkspaceState where
  internal_id : Nat
  handle : Nat
  name : String
  id : Option String
  coords : List Nat
  state : Nat
  capabilities : Nat
  group_id : Option Nat
  removed : Bool
  serial : Nat
  deriving DecidableEq

/-- `WorkspaceGroupState`: per-workspace-group registry entry. -/
structure WorkspaceGroupState where
  id : Nat
  handle : Nat
  outputs : List Nat
  removed : Bool
  capabilities : Nat
  deriving DecidableEq

/-- `WaylandState` of the workspace watcher (channel endpoints and the
manager proxy omitted: emitted events and protocol calls are returned by
the step functions instead). -/
structure WaylandState where
  workspaces : List WorkspaceState
  groups : List WorkspaceGroupState
  next_workspace_id : Nat
  next_group_id : Nat
  next_serial : Nat
  finished : Bool
  deriving DecidableEq

def STATE_ACTIVE : Nat := 1
def STATE_URGENT : Nat := 2
def STATE_HIDDEN : Nat := 4

/-- Lexicographic comparison of `Vec<u32>` (`Ord for Vec`): element-wise,
a strict prefix compares less. -/
def listLex : List Nat → List Nat → Ordering
  | [], [] => Ordering.eq
  | [], _ :: _ => Ordering.lt
  | _ :: _, [] => Ordering.gt
  | x :: xs, y :: ys =>
    match compare x y with
    | Ordering.eq => listLex xs ys
    | o => o

/-- The `sort_by` comparator of `emit_snapshot`: when either side has
coordinates, coordinates lexicographically with `serial` breaking ties;
otherwise `serial` (creation order). -/
def wsCmp (a b : WorkspaceState) : Ordering :=
  if !a.coords.isEmpty || !b.coords.isEmpty then
    match listLex a.coords b.coords with
    | Ordering.eq => compare a.serial b.serial
    | o => o
  else
    compare a.serial b.serial

/-- The non-strict order induced by the comparator, as used by the stable
`sort_by`: `a` may precede `b` iff the comparator does not say `Greater`. -/
def wsLe (a b : WorkspaceState) : Prop := wsCmp a b ≠ Ordering.gt

instance : DecidableRel wsLe :=
  fun a b => show Decidable (wsCmp a b ≠ Ordering.gt) from inferInstance

/-- `group_id.unwrap_or(0)`: unassigned workspaces land in group `0`
(real group ids start at 1). -/
def effective_group (w : WorkspaceState) : Nat := w.group_id.getD 0

/-- The non-removed registry entries, in registry order (the entries the
snapshot builder iterates without `continue`). -/
def live (s : WaylandState) : List WorkspaceState :=
  s.workspaces.filter (fun w => !w.removed)

/-- One `BTreeMap` bucket of `emit_snapshot`: the live entries of group
`gid`, in registry (insertion) order. -/
def bucket (s : WaylandState) (gid : Nat) : List WorkspaceState :=
  (live s).filter (fun w => effective_group w == gid)

/-- The key set of the `BTreeMap`, in ascending order: the distinct
effective group ids of the live entries. -/
def group_keys (s : WaylandState) : List Nat :=
  List.insertionSort (· ≤ ·) ((live s).map effective_group).dedup

/-- One bucket after the stable `sort_by` with the comparator. -/
def sorted_bucket (s : WaylandState) (gid : Nat) : List WorkspaceState :=
  List.insertionSort wsLe (bucket s gid)

/-- The `WorkspaceInfo` pushed for the entry at position `idx` (0-based)
of its sorted bucket: `index` is `idx + 1`, the state bits decode the
active/urgent/hidden flags. -/
def mk_info (gid idx : Nat) (w : WorkspaceState) : WorkspaceInfo :=
  { id := w.internal_id, name := w.name, index := idx + 1, group := gid,
    active := w.state &&& STATE_ACTIVE != 0,
    urgent := w.state &&& STATE_URGENT != 0,
    hidden := w.state &&& STATE_HIDDEN != 0 }

/-- The ordered snapshot list `emit_snapshot` builds: ascending group ids,
each group's bucket sorted by the comparator, entries numbered from 1
within their group. -/
def snapshot (s : WaylandState) : List WorkspaceInfo :=
  (group_keys s).flatMap (fun gid =>
    (sorted_bucket s gid).enum.map (fun p => mk_info gid p.1 p.2))

/-- `emit_snapshot`: build the snapshot from the current registry, then
purge entries flagged `removed` (workspaces and groups), then send the
snapshot.  The returned event list holds the send the source performs
after the purge. -/
def emit_snapshot (s : WaylandState) : WaylandState × List WorkspaceEvent :=
  let snap := snapshot s
  let s' := { s with
    workspaces := s.workspaces.filter (fun w => !w.removed),
    groups := s.groups.filter (fun g => !g.removed) }
  (s', [WorkspaceEvent.Snapshot snap])

/-- Wire events reaching the workspace watcher: manager-level
announcements and batch markers, group-handle events, workspace-handle
events (the `Dispatch` arms the source handles). -/
inductive WireEvent where
  | managerWorkspaceGroup (handle : Nat)
  | managerWorkspace (handle : Nat)
  | managerDone
  | managerFinished
  | groupCapabilities (handle caps : Nat)
  | groupOutputEnter (handle output : Nat)
  | groupOutputLeave (handle output : Nat)
  | groupWorkspaceEnter (ghandle whandle : Nat)
  | groupWorkspaceLeave (ghandle whandle : Nat)
  | groupRemoved (handle : Nat)
  | wsId (handle : Nat) (idStr : String)
  | wsName (handle : Nat) (name : String)
  | wsCoordinates (handle : Nat) (bytes : List Nat)
  | wsState (handle : Nat) (value : Nat)
  | wsCapabilities (handle : Nat) (value : Nat)
  | wsRemoved (handle : Nat)
  deriving DecidableEq

/-- The three `Dispatch` impls of the workspace watcher as one step
function.  Handle-keyed events on a handle absent from the registry are
dropped (`let Some(idx) = ... else return`); entries are created only by
the manager announcements. -/
def dispatch (s : WaylandState) (e : WireEvent) : WaylandState × List WorkspaceEvent :=
  match e with
  | .managerWorkspaceGroup h =>
    let fresh : WorkspaceGroupState :=
      { id := s.next_group_id, handle := h, outputs := [], removed := false,
        capabilities := 0 }
    ({ s with groups := s.groups ++ [fresh],
              next_group_id := s.next_group_id + 1 }, [])
  | .managerWorkspace h =>
    let fresh : WorkspaceState :=
      { internal_id := s.next_workspace_id, handle := h, name := "",
        id := none, coords := [], state := 0, capabilities := 0,
        group_id := none, removed := false, serial := s.next_serial }
    ({ s with workspaces := s.workspaces ++ [fresh],
              next_workspace_id := s.next_workspace_id + 1,
              next_serial := s.next_serial + 1 }, [])
  | .managerDone => emit_snapshot s
  | .managerFinished => ({ s with finished := true }, [])
  | .groupCapabilities h c =>
    let groups' := updateFirst (fun g => g.handle == h)
      (fun g => { g with capabilities := c }) s.groups
    ({ s with groups := groups' }, [])
  | .groupOutputEnter h o =>
    let groups' := updateFirst (fun g => g.handle == h)
      (fun g => { g with outputs := g.outputs ++ [o] }) s.groups
    ({ s with groups := groups' }, [])
  | .groupOutputLeave h o =>
    let groups' := updateFirst (fun g => g.handle == h)
      (fun g => { g with outputs := g.outputs.filter (fun x => x != o) }) s.groups
    ({ s with groups := groups' }, [])
  | .groupWorkspaceEnter gh wh =>
    match s.groups.find? (fun g => g.handle == gh) with
    | none => (s, [])
    | some g =>
      let workspaces' := updateFirst (fun w => w.handle == wh)
        (fun w => { w with group_id := some g.id }) s.workspaces
      ({ s with workspaces := workspaces' }, [])
  | .groupWorkspaceLeave gh wh =>
    match s.groups.find? (fun g => g.handle == gh) with
    | none => (s, [])
    | some _ =>
      let workspaces' := updateFirst (fun w => w.handle == wh)
        (fun w => { w with group_id := none }) s.workspaces
      ({ s with workspaces := workspaces' }, [])
  | .groupRemoved h =>
    let groups' := updateFirst (fun g => g.handle == h)
      (fun g => { g with removed := true }) s.groups
    ({ s with groups := groups' }, [])
  | .wsId h v =>
    let workspaces' := updateFirst (fun w => w.handle == h)
      (fun w => { w with id := some v }) s.workspaces
    ({ s with workspaces := workspaces' }, [])
  | .wsName h v =>
    let workspaces' := updateFirst (fun w => w.handle == h)
      (fun w => { w with name := v }) s.workspaces
    ({ s with workspaces := workspaces' }, [])
  | .wsCoordinates h bytes =>
    let workspaces' := updateFirst (fun w => w.handle == h)
      (fun w => { w with coords := parse_u32_array bytes }) s.workspaces
    ({ s with workspaces := workspaces' }, [])
  | .wsState h v =>
    let workspaces' := updateFirst (fun w => w.handle == h)
      (fun w => { w with state := v }) s.workspaces
    ({ s with workspaces := workspaces' }, [])
  | .wsCapabilities h v =>
    let workspaces' := updateFirst (fun w => w.handle == h)
      (fun w => { w with capabilities := v }) s.workspaces
    ({ s with workspaces := workspaces' }, [])
  | .wsRemoved h =>
    let workspaces' := updateFirst (fun w => w.handle == h)
      (fun w => { w with removed := true }) s.workspaces
    ({ s with workspaces := workspaces' }, [])

/-- Watcher state right after a successful bind, as built by
`run_workspace_watcher`. -/
def initial : WaylandState :=
  { workspaces := [], groups := [], next_workspace_id := 1,
    next_group_id := 1, next_serial := 1, finished := false }

/-- Run a buffered sequence of wire events from an arbitrary state,
collecting every event sent on the outbound channel in order. -/
def run_from (start : WaylandState × List WorkspaceEvent)
    (events : List WireEvent) : WaylandState × List WorkspaceEvent :=
  events.foldl (fun acc e =>
    let r := dispatch acc.1 e
    (r.1, acc.2 ++ r.2)) start

/-- Run a buffered sequence of wire events from the freshly-bound state,
collecting every event sent on the outbound channel in order. -/
def run (events : List WireEvent) : WaylandState × List WorkspaceEvent :=
  run_from (initial, []) events

/-- Protocol requests the workspace watcher issues to the compositor. -/
inductive ProtocolCall where
  | activate (handle : Nat)
  | commit
  deriving DecidableEq

/-- The `Activate` arm of the request drain: resolve the internal id,
check bit 0 of the entry's last-known capability bitmask, and only then
issue `activate()`.  Unknown ids and entries without the activate
capability produce no call. -/
def activate_calls (s : WaylandState) (id : Nat) : List ProtocolCall :=
  match s.workspaces.find? (fun w => w.internal_id == id) with
  | some w =>
    if w.capabilities &&& 1 != 0 then [ProtocolCall.activate w.handle] else []
  | none => []

/-- One pass of the request drain loop: translate every queued request,
then issue a single `commit()` iff some request caused a protocol call
(`needs_commit`). -/
def process_requests (s : WaylandState) (reqs : List WorkspaceRequest) : List ProtocolCall :=
  let calls := reqs.flatMap (fun r =>
    match r with
    | WorkspaceRequest.Activate id => activate_calls s id)
  calls ++ (if calls.isEmpty then [] else [ProtocolCall.commit])

/-- Startup outcome of `run_workspace_watcher`: when the manager global
cannot be bound, send exactly one `Unavailable` with the reason string
and return `Ok(())` — no retry, no further events; otherwise dispatch
wire events until the manager says `Finished` or the process ends. -/
def watcher_outcome (manager_bound : Bool) (events : List WireEvent) :
    List WorkspaceEvent × Except String Unit :=
  if manager_bound then
    ((run events).2, Except.ok ())
  else
    ([WorkspaceEvent.Unavailable "ext_workspace_v1 not supported by compositor"],
     Except.ok ())

end Workspaces

/-! ## Bounded channel sends

Both watchers talk to the UI over bounded `tokio::sync::mpsc` channels
(events capacity 8 for workspaces, 32 for toplevels) and emit every
event with `Sender::blocking_send`, discarding the `Result`.  The model
below captures the documented semantics of `blocking_send` on a bounded
channel — wait for capacity when the queue is full, fail only when the
receiver is gone — and, for comparison, the best-effort `try_send`-style
behaviour the specification describes. -/

namespace Channel

/-- Outcome of one send on a bounded channel. -/
inductive SendOutcome where
  | delivered
  | blockedThenDelivered
  | droppedFull
  | droppedClosed
  deriving DecidableEq

/-- `tokio::sync::mpsc::Sender::blocking_send` on a bounded channel with
`capacity` slots of which `queue_len` are occupied: an error only when
the receiver is dropped; when the channel is full the calling thread
blocks until a slot frees and the item is still delivered — a full
channel never drops the item. -/
def blocking_send (capacity queue_len : Nat) (closed : Bool) : SendOutcome :=
  if closed then SendOutcome.droppedClosed
  else if queue_len < capacity then SendOutcome.delivered
  else SendOutcome.blockedThenDelivered

/-- Modelled from the spec: the non-blocking best-effort send the
specification prescribes for watcher emissions ("bounded channel full on
send → drop the item (best-effort), never block the watcher thread").
Stated only for comparison with `blocking_send`; the source calls
`blocking_send` at every watcher emission site. -/
def spec_best_effort_send (capacity queue_len : Nat) (closed : Bool) : SendOutcome :=
  if closed then SendOutcome.droppedClosed
  else if queue_len < capacity then SendOutcome.delivered
  else SendOutcome.droppedFull

/-- Capacity of the workspace events channel (`mpsc::channel(8)`). -/
def workspace_event_capacity : Nat := 8

/-- Capacity of the toplevel events channel (`mpsc::channel(32)`). -/
def toplevel_event_capacity : Nat := 32

/-- The send `emit_snapshot` performs for a workspace snapshot. -/
def workspace_snapshot_send (queue_len : Nat) (closed : Bool) : SendOutcome :=
  blocking_send workspace_event_capacity queue_len closed

/-- The send the toplevel dispatch performs for each New/Update/Remove. -/
def toplevel_event_send (queue_len : Nat) (closed : Bool) : SendOutcome :=
  blocking_send toplevel_event_capacity queue_len closed

end Channel

/-! ## Concrete demonstration states

Small concrete states and event histories used to instantiate the general
theorems below at executable inputs. -/

namespace Taskbar

/-- A registry holding one promoted toplevel (internal id 1, wire handle
42) and a bound seat. -/
def demo_close_state : WaylandState :=
  { handles := [{ id := 1, handle := 42, pending_title := "Terminal",
                  pending_app_id := "kitty", pending_focused := false,
                  initial_done := true }],
    seat := some 3, next_id := 2 }

/-- A registry holding one not-yet-promoted toplevel with a pending
non-empty app id. -/
def demo_pending_state : WaylandState :=
  { handles := [{ id := 1, handle := 5, pending_title := "Firefox",
                  pending_app_id := "firefox", pending_focused := false,
                  initial_done := false }],
    seat := some 0, next_id := 2 }

end Taskbar

namespace Workspaces

/-- Two workspaces in one group carrying coordinates `[1,0]` and `[0,0]`
(in that creation order). -/
def demo_coords_events : List WireEvent :=
  [.managerWorkspaceGroup 10, .managerWorkspace 20, .managerWorkspace 21,
   .groupWorkspaceEnter 10 20, .groupWorkspaceEnter 10 21,
   .wsCoordinates 20 [1, 0, 0, 0, 0, 0, 0, 0],
   .wsCoordinates 21 [0, 0, 0, 0, 0, 0, 0, 0]]

/-- Two workspaces in one group with no coordinates at all. -/
def demo_serial_events : List WireEvent :=
  [.managerWorkspaceGroup 10, .managerWorkspace 20, .managerWorkspace 21,
   .groupWorkspaceEnter 10 20, .groupWorkspaceEnter 10 21]

/-- Two workspaces, the first of which the compositor then removes. -/
def demo_removed_events : List WireEvent :=
  [.managerWorkspace 20, .managerWorkspace 21, .wsRemoved 20]

/-- The registry entry of the removed workspace at the end of
`demo_removed_events` (internal id 1, soft-deleted). -/
def demo_removed_entry : WorkspaceState :=
  { internal_id := 1, handle := 20, name := "", id := none, coords := [],
    state := 0, capabilities := 0, group_id := none, removed := true,
    serial := 1 }

/-- A registry holding one workspace whose capability bitmask lacks the
activate bit. -/
def demo_caps0_state : WaylandState :=
  { workspaces := [{ internal_id := 1, handle := 9, name := "one",
                     id := none, coords := [], state := 0,
                     capabilities := 0, group_id := none, removed := false,
                     serial := 1 }],
    groups := [], next_workspace_id := 2, next_group_id := 1,
    next_serial := 2, finished := false }

end Workspaces

end Ferritebar

/-! # Theorems -/

namespace Ferritebar

/-! ## Generic helper lemmas -/

/-- `updateFirst` leaves a list unchanged when no element matches. -/
theorem updateFirst_of_find?_none {α : Type} {p : α → Bool} (f : α → α) :
    ∀ l : List α, l.find? p = none → updateFirst p f l = l := by
  intro l
  induction l with
  | nil => intro _; rfl
  | cons x xs ih =>
    intro h
    rw [List.find?_cons] at h
    cases hp : p x
    · rw [hp] at h
      simp [updateFirst, hp, ih h]
    · rw [hp] at h
      exact Option.noConfusion h

/-- `updateFirst` preserves any projection the update function preserves. -/
theorem map_updateFirst {α β : Type} {p : α → Bool} {f : α → α} {g : α → β}
    (hg : ∀ x, g (f x) = g x) :
    ∀ l : List α, (updateFirst p f l).map g = l.map g := by
  intro l
  induction l with
  | nil => rfl
  | cons x xs ih => cases hp : p x <;> simp [updateFirst, hp, hg, ih]

/-- `parse_u32_array` yields exactly one word per complete 4-byte chunk. -/
theorem parse_u32_array_length :
    ∀ data : List Nat, (parse_u32_array data).length = data.length / 4
  | [] => by simp [parse_u32_array]
  | [_] => by simp [parse_u32_array]
  | [_, _] => by simp [parse_u32_array]
  | [_, _, _] => by simp [parse_u32_array]
  | _ :: _ :: _ :: _ :: rest => by
    have ih := parse_u32_array_length rest
    simp only [parse_u32_array, List.length_cons, ih]
    omega

/-- A buffer shorter than one word parses to the empty array. -/
theorem parse_u32_array_of_short {data : List Nat} (h : data.length < 4) :
    parse_u32_array data = [] := by
  match data with
  | [] => rfl
  | [_] => rfl
  | [_, _] => rfl
  | [_, _, _] => rfl
  | _ :: _ :: _ :: _ :: _ => simp at h; omega


/-! ## Claim C2: toplevel lifecycle end to end -/

/-- C2: from a fresh handle, `Title("Firefox")`, `AppId("firefox")`,
`Done` produce exactly one `New` with app id `firefox`, title `Firefox`,
not focused; a `State` carrying the activated value followed by `Done`
produces exactly one `Update` with `focused = true`; `Closed` produces
`Remove` carrying the entry's internal id. -/
theorem toplevel_lifecycle_end_to_end :
    (Taskbar.run
      [.handleEv 5 (.title "Firefox"),
       .handleEv 5 (.appId "firefox"),
       .handleEv 5 .done,
       .handleEv 5 (.state [2, 0, 0, 0]),
       .handleEv 5 .done,
       .handleEv 5 .closed]).2
    = [.New { id := 1, app_id := "firefox", title := "Firefox", focused := false },
       .Update { id := 1, app_id := "firefox", title := "Firefox", focused := true },
       .Remove 1] := by
  rfl

/-! ## Claim C10: Remove without a preceding New -/

/-- C10: a handle whose app id stays empty through its Done (so `New` is
suppressed) still triggers `Remove` on `Closed`: the whole output of this
history is a single `Remove 1`, an id the UI never saw a `New` for. -/
theorem remove_without_new :
    (Taskbar.run
      [.handleEv 7 (.title "Dialog"),
       .handleEv 7 .done,
       .handleEv 7 .closed]).2
    = [.Remove 1] := by
  rfl

/-! ## Claim C8: empty app id suppresses New -/

/-- C8: no dispatch step ever emits a `New` event whose app id is empty:
promotion at `Done` is guarded by `!info.app_id.is_empty()`. -/
theorem new_event_app_id_nonempty (s : Taskbar.WaylandState)
    (w : Taskbar.WireEvent) (info : Taskbar.ToplevelInfo)
    (hmem : Taskbar.ToplevelEvent.New info ∈ (Taskbar.dispatch s w).2) :
    info.app_id ≠ "" := by
  match w with
  | .managerToplevel _ => simp [Taskbar.dispatch] at hmem
  | .managerFinished => simp [Taskbar.dispatch] at hmem
  | .handleEv h e =>
    match e with
    | .title t =>
      simp only [Taskbar.dispatch, Taskbar.dispatch_handle_event] at hmem
      split at hmem <;> simp at hmem
    | .appId a =>
      simp only [Taskbar.dispatch, Taskbar.dispatch_handle_event] at hmem
      split at hmem <;> simp at hmem
    | .state bytes =>
      simp [Taskbar.dispatch, Taskbar.dispatch_handle_event] at hmem
    | .closed =>
      simp only [Taskbar.dispatch, Taskbar.dispatch_handle_event] at hmem
      split at hmem <;> simp at hmem
    | .done =>
      simp only [Taskbar.dispatch, Taskbar.dispatch_handle_event] at hmem
      split at hmem
      · simp at hmem
      · split at hmem
        · simp at hmem
        · split at hmem
          · simp at hmem
          · rename_i hs _ _ hne
            simp only [List.mem_singleton] at hmem
            cases hmem
            intro hcontra
            exact hne ((String.isEmpty_iff _).2 hcontra)

/-- Witness for C8 at a concrete promoted entry. -/
theorem new_event_app_id_nonempty_witness :
    ({ id := 1, app_id := "firefox", title := "Firefox", focused := false } :
      Taskbar.ToplevelInfo).app_id ≠ "" :=
  new_event_app_id_nonempty Taskbar.demo_pending_state
    (.handleEv 5 .done)
    { id := 1, app_id := "firefox", title := "Firefox", focused := false }
    (by decide)

/-! ## Claim C9: malformed wire buffers -/

/-- C9 counterexample: a 5-byte buffer is not treated as an empty/zero
bitmask — its one complete word is parsed and acted on: the workspace
parser returns `[1]`, and the taskbar state scan reports focused. -/
theorem partial_word_buffer_not_zeroed :
    parse_u32_array [1, 0, 0, 0, 9] = [1]
    ∧ Taskbar.toplevel_state_focused [2, 0, 0, 0, 9] = true := by
  exact ⟨rfl, rfl⟩

/-- C9 amended: parsing is total and degrades gracefully, but by
truncation, not zeroing: every complete 4-byte word is parsed
(`len / 4` words), a trailing partial word is ignored, and only buffers
shorter than one word (under 4 bytes) give the empty array / an unfocused
state. -/
theorem wire_buffer_parsing_graceful (data : List Nat) :
    (parse_u32_array data).length = data.length / 4
    ∧ (data.length < 4 →
        parse_u32_array data = [] ∧ Taskbar.toplevel_state_focused data = false) := by
  refine ⟨parse_u32_array_length data, fun h => ⟨parse_u32_array_of_short h, ?_⟩⟩
  unfold Taskbar.toplevel_state_focused
  rw [if_neg (by omega)]

/-- Witness for C9 amended at a concrete misaligned buffer. -/
theorem wire_buffer_parsing_graceful_witness :
    (parse_u32_array [1, 2, 3]).length = ([1, 2, 3] : List Nat).length / 4
    ∧ parse_u32_array [1, 2, 3] = []
    ∧ Taskbar.toplevel_state_focused [1, 2, 3] = false := by
  obtain ⟨h1, h2⟩ := wire_buffer_parsing_graceful [1, 2, 3]
  obtain ⟨h3, h4⟩ := h2 (by decide)
  exact ⟨h1, h3, h4⟩

/-! ## Claim C4: channel sends by the watcher threads -/

/-- C4 counterexample: at a full open channel the watcher emission
(`blocking_send` at every emission site) blocks the watcher thread until
a slot frees and still delivers the item — it does not drop it. -/
theorem full_channel_send_blocks_not_drops :
    Channel.workspace_snapshot_send 8 false = Channel.SendOutcome.blockedThenDelivered
    ∧ Channel.toplevel_event_send 32 false = Channel.SendOutcome.blockedThenDelivered := by
  exact ⟨rfl, rfl⟩

/-- C4 amended: watcher emissions use `blocking_send`: an item is never
dropped because the channel is full; when the channel is full and the
receiver alive, the watcher thread blocks until capacity frees (send
errors from a dropped receiver are swallowed by `let _ =`). -/
theorem watcher_send_blocking_behaviour (queue_len : Nat) (closed : Bool) :
    (Channel.workspace_snapshot_send queue_len closed ≠ Channel.SendOutcome.droppedFull)
    ∧ (Channel.toplevel_event_send queue_len closed ≠ Channel.SendOutcome.droppedFull)
    ∧ (8 ≤ queue_len → closed = false →
        Channel.workspace_snapshot_send queue_len closed
          = Channel.SendOutcome.blockedThenDelivered)
    ∧ (32 ≤ queue_len → closed = false →
        Channel.toplevel_event_send queue_len closed
          = Channel.SendOutcome.blockedThenDelivered) := by
  unfold Channel.workspace_snapshot_send Channel.toplevel_event_send
    Channel.blocking_send Channel.workspace_event_capacity
    Channel.toplevel_event_capacity
  refine ⟨?_, ?_, ?_, ?_⟩
  · split
    · simp
    · split <;> simp
  · split
    · simp
    · split <;> simp
  · intro hq hc; subst hc; rw [if_neg (by simp), if_neg (by omega)]
  · intro hq hc; subst hc; rw [if_neg (by simp), if_neg (by omega)]

/-- Witness for C4 amended at a concrete full channel. -/
theorem watcher_send_blocking_behaviour_witness :
    (Channel.workspace_snapshot_send 8 false ≠ Channel.SendOutcome.droppedFull)
    ∧ Channel.workspace_snapshot_send 8 false = Channel.SendOutcome.blockedThenDelivered
    ∧ Channel.toplevel_event_send 32 false = Channel.SendOutcome.blockedThenDelivered := by
  obtain ⟨h1, _, h3, h4⟩ := watcher_send_blocking_behaviour 8 false
  obtain ⟨_, _, _, g4⟩ := watcher_send_blocking_behaviour 32 false
  exact ⟨h1, h3 (by decide) rfl, g4 (by decide) rfl⟩

/-! ## Claim C6: bind failure at startup -/

/-- C6 counterexample: when the toplevel manager global cannot be bound,
`run_toplevel_watcher` propagates the error with `?`: no event at all is
sent (the toplevel event type has no unavailable variant), and the
watcher terminates with an error rather than cleanly. -/
theorem toplevel_bind_failure_silent :
    Taskbar.watcher_outcome false true []
      = ([], Except.error "zwlr_foreign_toplevel_manager_v1 bind failed") := by
  rfl

/-- C6 amended: only the workspace watcher reports `Unavailable`: on a
failed manager bind it sends exactly one `Unavailable` with a reason
string and returns cleanly, emitting nothing further whatever wire
events would have followed; the toplevel watcher instead terminates with
an error and emits no event at all. -/
theorem bind_failure_outcomes (eventsW : List Workspaces.WireEvent)
    (eventsT : List Taskbar.WireEvent) (seat_bound : Bool) :
    Workspaces.watcher_outcome false eventsW
      = ([Workspaces.WorkspaceEvent.Unavailable
            "ext_workspace_v1 not supported by compositor"], Except.ok ())
    ∧ Taskbar.watcher_outcome false seat_bound eventsT
      = ([], Except.error "zwlr_foreign_toplevel_manager_v1 bind failed") := by
  exact ⟨rfl, rfl⟩

/-! ## Claim C5: capability checks in the request bridges -/

/-- C5 counterexample: `Close` on a known toplevel always issues the
`close()` protocol call — the toplevel watcher records no capability
bitmask for its handles, so no close-capability check exists that could
block the request. -/
theorem toplevel_close_not_capability_gated :
    Taskbar.process_request Taskbar.demo_close_state
      (Taskbar.ToplevelRequest.Close 1)
    = [Taskbar.ProtocolCall.close 42] := by
  rfl

/-- C5 amended: only the workspace watcher capability-gates its requests:
`Activate` on a workspace whose bitmask lacks bit 0 issues no call, and
unknown ids are no-ops in both watchers; the toplevel watcher issues
`close()` unconditionally for every known id (and `activate(seat)`
whenever a seat is bound), with no capability check. -/
theorem request_bridge_capability_checks (ws : Workspaces.WaylandState)
    (ts : Taskbar.WaylandState) (id : Nat) :
    (ws.workspaces.find? (fun w => w.internal_id == id) = none →
      Workspaces.process_requests ws [Workspaces.WorkspaceRequest.Activate id] = [])
    ∧ (∀ w, ws.workspaces.find? (fun w' => w'.internal_id == id) = some w →
        w.capabilities &&& 1 = 0 →
        Workspaces.process_requests ws [Workspaces.WorkspaceRequest.Activate id] = [])
    ∧ (ts.handles.find? (fun x => x.id == id) = none →
        Taskbar.process_request ts (Taskbar.ToplevelRequest.Activate id) = []
        ∧ Taskbar.process_request ts (Taskbar.ToplevelRequest.Close id) = [])
    ∧ (∀ hs, ts.handles.find? (fun x => x.id == id) = some hs →
        Taskbar.process_request ts (Taskbar.ToplevelRequest.Close id)
          = [Taskbar.ProtocolCall.close hs.handle]) := by
  refine ⟨?_, ?_, ?_, ?_⟩
  · intro h
    simp [Workspaces.process_requests, Workspaces.activate_calls, h]
  · intro w h hcap
    rw [Nat.and_one_is_mod] at hcap
    simp [Workspaces.process_requests, Workspaces.activate_calls, h, hcap]
  · intro h
    constructor <;> simp [Taskbar.process_request, h]
  · intro hs h
    simp [Taskbar.process_request, h]

/-- Witness for C5 amended at concrete registries. -/
theorem request_bridge_capability_checks_witness :
    Workspaces.process_requests Workspaces.initial
      [Workspaces.WorkspaceRequest.Activate 1] = []
    ∧ Workspaces.process_requests Workspaces.demo_caps0_state
      [Workspaces.WorkspaceRequest.Activate 1] = []
    ∧ Taskbar.process_request (Taskbar.initial 0) (Taskbar.ToplevelRequest.Close 1) = []
    ∧ Taskbar.process_request Taskbar.demo_close_state (Taskbar.ToplevelRequest.Close 1)
      = [Taskbar.ProtocolCall.close 42] := by
  obtain ⟨h1, _, _, _⟩ :=
    request_bridge_capability_checks Workspaces.initial (Taskbar.initial 0) 1
  obtain ⟨_, h2, h3, _⟩ :=
    request_bridge_capability_checks Workspaces.demo_caps0_state (Taskbar.initial 0) 1
  obtain ⟨_, _, _, h4⟩ :=
    request_bridge_capability_checks Workspaces.initial Taskbar.demo_close_state 1
  refine ⟨h1 (by decide),
    h2 { internal_id := 1, handle := 9, name := "one", id := none,
         coords := [], state := 0, capabilities := 0, group_id := none,
         removed := false, serial := 1 } (by decide) (by decide),
    (h3 (by decide)).2, ?_⟩
  exact h4 { id := 1, handle := 42, pending_title := "Terminal",
             pending_app_id := "kitty", pending_focused := false,
             initial_done := true } (by decide)

/-! ## Claim C7: events for handles not yet registered -/

/-- C7 counterexample: attribute events keyed to an unknown handle do
not implicitly create a registry entry: a workspace `Name` or
`Coordinates` event on an empty registry leaves the registry empty (the
dispatch drops the event), as does a toplevel `State` event. -/
theorem unknown_handle_attribute_dropped :
    (Workspaces.dispatch Workspaces.initial (.wsName 7 "alpha")).1
      = Workspaces.initial
    ∧ (Workspaces.dispatch Workspaces.initial (.wsCoordinates 7 [1, 0, 0, 0])).1
      = Workspaces.initial
    ∧ (Taskbar.dispatch (Taskbar.initial 0) (.handleEv 9 (.state [2, 0, 0, 0]))).1
      = Taskbar.initial 0 := by
  exact ⟨rfl, rfl, rfl⟩

/-- C7 amended: only taskbar `Title` and `AppId` events implicitly create
an entry (with default/empty remaining fields and a fresh internal id)
when their handle is unknown; taskbar `State` events and all
workspace-handle attribute events on unknown handles are dropped —
workspace entries are created only by manager announcements. -/
theorem implicit_creation_only_title_appid (ts : Taskbar.WaylandState)
    (ws : Workspaces.WaylandState) (h : Nat) (t a idStr : String)
    (bytes : List Nat) (v : Nat)
    (hT : ts.handles.find? (fun x => x.handle == h) = none)
    (hW : ws.workspaces.find? (fun x => x.handle == h) = none) :
    ((Taskbar.dispatch ts (.handleEv h (.title t))).1.handles
      = ts.handles ++
        [{ id := ts.next_id, handle := h, pending_title := t,
           pending_app_id := "", pending_focused := false,
           initial_done := false }])
    ∧ ((Taskbar.dispatch ts (.handleEv h (.appId a))).1.handles
      = ts.handles ++
        [{ id := ts.next_id, handle := h, pending_title := "",
           pending_app_id := a, pending_focused := false,
           initial_done := false }])
    ∧ (Taskbar.dispatch ts (.handleEv h (.state bytes))).1 = ts
    ∧ (Workspaces.dispatch ws (.wsId h idStr)).1 = ws
    ∧ (Workspaces.dispatch ws (.wsName h t)).1 = ws
    ∧ (Workspaces.dispatch ws (.wsCoordinates h bytes)).1 = ws
    ∧ (Workspaces.dispatch ws (.wsState h v)).1 = ws
    ∧ (Workspaces.dispatch ws (.wsCapabilities h v)).1 = ws := by
  refine ⟨?_, ?_, ?_, ?_, ?_, ?_, ?_, ?_⟩
  · simp [Taskbar.dispatch, Taskbar.dispatch_handle_event, hT]
  · simp [Taskbar.dispatch, Taskbar.dispatch_handle_event, hT]
  · show ({ ts with handles := _ } : Taskbar.WaylandState) = ts
    rw [updateFirst_of_find?_none _ _ hT]
  · show ({ ws with workspaces := _ } : Workspaces.WaylandState) = ws
    rw [updateFirst_of_find?_none _ _ hW]
  · show ({ ws with workspaces := _ } : Workspaces.WaylandState) = ws
    rw [updateFirst_of_find?_none _ _ hW]
  · show ({ ws with workspaces := _ } : Workspaces.WaylandState) = ws
    rw [updateFirst_of_find?_none _ _ hW]
  · show ({ ws with workspaces := _ } : Workspaces.WaylandState) = ws
    rw [updateFirst_of_find?_none _ _ hW]
  · show ({ ws with workspaces := _ } : Workspaces.WaylandState) = ws
    rw [updateFirst_of_find?_none _ _ hW]

/-- Witness for C7 amended at the empty registries. -/
theorem implicit_creation_only_title_appid_witness :
    ((Taskbar.dispatch (Taskbar.initial 0) (.handleEv 9 (.title "T"))).1.handles
      = [{ id := 1, handle := 9, pending_title := "T", pending_app_id := "",
           pending_focused := false, initial_done := false }])
    ∧ (Workspaces.dispatch Workspaces.initial (.wsName 9 "T")).1
      = Workspaces.initial := by
  obtain ⟨h1, _, _, _, h5, _, _, _⟩ :=
    implicit_creation_only_title_appid (Taskbar.initial 0) Workspaces.initial
      9 "T" "a" "i" [] 0 (by decide) (by decide)
  exact ⟨h1, h5⟩

/-! ## Comparator lemmas for the workspace sort -/

/-- `listLex` recognises equality exactly. -/
theorem listLex_eq_iff : ∀ l1 l2 : List Nat,
    Workspaces.listLex l1 l2 = Ordering.eq ↔ l1 = l2
  | [], [] => by simp [Workspaces.listLex]
  | [], _ :: _ => by simp [Workspaces.listLex]
  | _ :: _, [] => by simp [Workspaces.listLex]
  | x :: xs, y :: ys => by
    simp only [Workspaces.listLex]
    cases hc : compare x y with
    | eq =>
      have hxy : x = y := Nat.compare_eq_eq.1 hc
      subst hxy
      simp [listLex_eq_iff xs ys]
    | lt =>
      have hxy : x ≠ y := by
        have := Nat.compare_eq_lt.1 hc
        omega
      simp [hxy]
    | gt =>
      have hxy : x ≠ y := by
        have := Nat.compare_eq_gt.1 hc
        omega
      simp [hxy]

/-- `listLex` is antisymmetric under argument swap. -/
theorem listLex_swap : ∀ l1 l2 : List Nat,
    Workspaces.listLex l2 l1 = (Workspaces.listLex l1 l2).swap
  | [], [] => rfl
  | [], _ :: _ => rfl
  | _ :: _, [] => rfl
  | x :: xs, y :: ys => by
    simp only [Workspaces.listLex]
    rw [← Nat.compare_swap]
    cases hc : compare x y <;> simp [Ordering.swap, listLex_swap xs ys]

/-- Inversion of `listLex ≠ gt` on two cons cells. -/
theorem listLex_cons_ne_gt {x y : Nat} {xs ys : List Nat} :
    Workspaces.listLex (x :: xs) (y :: ys) ≠ Ordering.gt ↔
      x < y ∨ (x = y ∧ Workspaces.listLex xs ys ≠ Ordering.gt) := by
  simp only [Workspaces.listLex]
  cases hc : compare x y with
  | lt =>
    have hxy := Nat.compare_eq_lt.1 hc
    simp [hxy]
  | eq =>
    have hxy := Nat.compare_eq_eq.1 hc
    simp [hxy]
  | gt =>
    have hxy := Nat.compare_eq_gt.1 hc
    have h1 : ¬x < y := by omega
    have h2 : x ≠ y := by omega
    simp [h1, h2]

/-- Transitivity of the non-strict `listLex` order. -/
theorem listLex_le_trans : ∀ l1 l2 l3 : List Nat,
    Workspaces.listLex l1 l2 ≠ Ordering.gt →
    Workspaces.listLex l2 l3 ≠ Ordering.gt →
    Workspaces.listLex l1 l3 ≠ Ordering.gt
  | [], l2, l3, _, _ => by cases l3 <;> simp [Workspaces.listLex]
  | _ :: _, [], _, h1, _ => absurd rfl h1
  | _ :: _, _ :: _, [], _, h2 => absurd rfl h2
  | x :: xs, y :: ys, z :: zs, h1, h2 => by
    rw [listLex_cons_ne_gt] at h1 h2 ⊢
    rcases h1 with hlt1 | ⟨heq1, h1'⟩
    · rcases h2 with hlt2 | ⟨heq2, _⟩
      · exact Or.inl (Nat.lt_trans hlt1 hlt2)
      · exact Or.inl (heq2 ▸ hlt1)
    · rcases h2 with hlt2 | ⟨heq2, h2'⟩
      · exact Or.inl (heq1 ▸ hlt2)
      · exact Or.inr ⟨heq1.trans heq2, listLex_le_trans xs ys zs h1' h2'⟩

/-- The comparator of `emit_snapshot` always compares the pair
(coordinates lexicographically, then serial): the guard on empty
coordinate vectors is redundant, because two empty vectors compare
`Equal` and fall through to `serial` anyway. -/
theorem wsCmp_eq_key (a b : Workspaces.WorkspaceState) :
    Workspaces.wsCmp a b =
      (match Workspaces.listLex a.coords b.coords with
       | Ordering.eq => compare a.serial b.serial
       | o => o) := by
  unfold Workspaces.wsCmp
  by_cases hc : (!a.coords.isEmpty || !b.coords.isEmpty) = true
  · rw [if_pos hc]
  · rw [if_neg hc]
    have hab : a.coords.isEmpty = true ∧ b.coords.isEmpty = true := by
      cases ha : a.coords.isEmpty <;> cases hb : b.coords.isEmpty <;>
        simp [ha, hb] at hc ⊢
    rw [List.isEmpty_iff.1 hab.1, List.isEmpty_iff.1 hab.2]
    rfl

/-- The comparator is antisymmetric under argument swap. -/
theorem wsCmp_swap (a b : Workspaces.WorkspaceState) :
    Workspaces.wsCmp b a = (Workspaces.wsCmp a b).swap := by
  rw [wsCmp_eq_key, wsCmp_eq_key, listLex_swap, ← Nat.compare_swap]
  cases Workspaces.listLex a.coords b.coords <;> rfl

/-- The sort relation is total. -/
theorem wsLe_total (a b : Workspaces.WorkspaceState) :
    Workspaces.wsLe a b ∨ Workspaces.wsLe b a := by
  by_cases h : Workspaces.wsCmp a b = Ordering.gt
  · refine Or.inr ?_
    unfold Workspaces.wsLe
    rw [wsCmp_swap, h]
    exact fun hh => Ordering.noConfusion hh
  · exact Or.inl h

/-- The sort relation is transitive. -/
theorem wsLe_trans {a b c : Workspaces.WorkspaceState}
    (h1 : Workspaces.wsLe a b) (h2 : Workspaces.wsLe b c) :
    Workspaces.wsLe a c := by
  unfold Workspaces.wsLe at h1 h2 ⊢
  rw [wsCmp_eq_key] at h1 h2 ⊢
  cases e1 : Workspaces.listLex a.coords b.coords <;> rw [e1] at h1
  · -- coords a < coords b
    cases e2 : Workspaces.listLex b.coords c.coords <;> rw [e2] at h2
    · have hac : Workspaces.listLex a.coords c.coords ≠ Ordering.gt :=
        listLex_le_trans _ _ _ (by rw [e1]; exact fun hh => Ordering.noConfusion hh)
          (by rw [e2]; exact fun hh => Ordering.noConfusion hh)
      cases e3 : Workspaces.listLex a.coords c.coords with
      | lt => exact fun hh => Ordering.noConfusion hh
      | gt => exact absurd e3 hac
      | eq =>
        have hac' : a.coords = c.coords := (listLex_eq_iff _ _).1 e3
        have hswap := listLex_swap a.coords b.coords
        rw [e1] at hswap
        rw [← hac', hswap] at e2
        exact Ordering.noConfusion e2
    · have hbc : b.coords = c.coords := (listLex_eq_iff _ _).1 e2
      rw [← hbc, e1]
      exact fun hh => Ordering.noConfusion hh
    · exact absurd rfl h2
  · -- coords a = coords b
    have hab : a.coords = b.coords := (listLex_eq_iff _ _).1 e1
    cases e2 : Workspaces.listLex b.coords c.coords <;> rw [e2] at h2
    · rw [hab, e2]
      exact fun hh => Ordering.noConfusion hh
    · have hbc : b.coords = c.coords := (listLex_eq_iff _ _).1 e2
      rw [hab, hbc, (listLex_eq_iff _ _).2 rfl]
      have hs1 : a.serial ≤ b.serial := Nat.compare_ne_gt.1 h1
      have hs2 : b.serial ≤ c.serial := Nat.compare_ne_gt.1 h2
      exact Nat.compare_ne_gt.2 (Nat.le_trans hs1 hs2)
    · exact absurd rfl h2
  · exact absurd rfl h1

/-- `wsLe` entails the coordinate order (coordinates never decrease along
the sorted bucket). -/
theorem wsLe_coords {a b : Workspaces.WorkspaceState}
    (h : Workspaces.wsLe a b) :
    Workspaces.listLex a.coords b.coords ≠ Ordering.gt := by
  unfold Workspaces.wsLe at h
  rw [wsCmp_eq_key] at h
  cases e : Workspaces.listLex a.coords b.coords <;> rw [e] at h
  · exact fun hh => Ordering.noConfusion hh
  · exact fun hh => Ordering.noConfusion hh
  · exact absurd rfl h

/-- On entries without coordinates, `wsLe` is the serial order. -/
theorem wsLe_serial_of_no_coords {a b : Workspaces.WorkspaceState}
    (ha : a.coords = []) (hb : b.coords = [])
    (h : Workspaces.wsLe a b) : a.serial ≤ b.serial := by
  unfold Workspaces.wsLe at h
  rw [wsCmp_eq_key, ha, hb] at h
  exact Nat.compare_ne_gt.1 h

/-! ## Structure of the workspace snapshot -/

/-- The group keys are produced in ascending order. -/
theorem group_keys_sorted (s : Workspaces.WaylandState) :
    List.Sorted (· ≤ ·) (Workspaces.group_keys s) :=
  List.sorted_insertionSort _ _

/-- The group keys are distinct. -/
theorem group_keys_nodup (s : Workspaces.WaylandState) :
    (Workspaces.group_keys s).Nodup :=
  (List.perm_insertionSort _ _).nodup_iff.2 (List.nodup_dedup _)

/-- The group keys are strictly ascending. -/
theorem group_keys_pairwise_lt (s : Workspaces.WaylandState) :
    List.Pairwise (· < ·) (Workspaces.group_keys s) :=
  (List.Pairwise.and (group_keys_sorted s) (group_keys_nodup s)).imp
    (fun h => lt_of_le_of_ne h.1 h.2)

/-- Membership in the key set is membership among the live entries'
effective groups. -/
theorem mem_group_keys {s : Workspaces.WaylandState} {gid : Nat} :
    gid ∈ Workspaces.group_keys s ↔
      gid ∈ (Workspaces.live s).map Workspaces.effective_group := by
  unfold Workspaces.group_keys
  rw [(List.perm_insertionSort _ _).mem_iff, List.mem_dedup]

/-- A group id outside the key set has an empty bucket. -/
theorem bucket_eq_nil {s : Workspaces.WaylandState} {gid : Nat}
    (h : gid ∉ Workspaces.group_keys s) : Workspaces.bucket s gid = [] := by
  rw [Workspaces.bucket, List.filter_eq_nil_iff]
  intro w hw hbeq
  exact h (mem_group_keys.2 (List.mem_map.2 ⟨w, hw, eq_of_beq hbeq⟩))

/-- The sorted bucket is a permutation of the bucket. -/
theorem sorted_bucket_perm (s : Workspaces.WaylandState) (gid : Nat) :
    (Workspaces.sorted_bucket s gid).Perm (Workspaces.bucket s gid) :=
  List.perm_insertionSort _ _

/-- The sorted bucket is sorted by the comparator order. -/
theorem sorted_bucket_sorted (s : Workspaces.WaylandState) (gid : Nat) :
    List.Sorted Workspaces.wsLe (Workspaces.sorted_bucket s gid) := by
  haveI : IsTotal Workspaces.WorkspaceState Workspaces.wsLe := ⟨wsLe_total⟩
  haveI : IsTrans Workspaces.WorkspaceState Workspaces.wsLe :=
    ⟨fun _ _ _ h1 h2 => wsLe_trans h1 h2⟩
  exact List.sorted_insertionSort _ _

/-- Filtering a keyed `flatMap` by one key selects exactly that key's
block. -/
theorem filter_flatMap_eq_of_group {β : Type} (g : β → Nat) (f : Nat → List β)
    (gid : Nat) :
    ∀ keys : List Nat, keys.Nodup → (∀ k ∈ keys, ∀ x ∈ f k, g x = k) →
      (keys.flatMap f).filter (fun x => g x == gid)
        = if gid ∈ keys then f gid else []
  | [], _, _ => by simp
  | k :: ks, hN, hf => by
    have ih := filter_flatMap_eq_of_group g f gid ks (List.nodup_cons.1 hN).2
      (fun k' h' => hf k' (List.mem_cons_of_mem _ h'))
    have hk : ∀ x ∈ f k, g x = k := hf k (List.mem_cons_self _ _)
    rw [List.flatMap_cons, List.filter_append, ih]
    by_cases hgid : k = gid
    · subst hgid
      have h1 : (f k).filter (fun x => g x == k) = f k :=
        List.filter_eq_self.2 (fun x hx => by simp [hk x hx])
      have h2 : k ∉ ks := (List.nodup_cons.1 hN).1
      rw [h1, if_neg h2, if_pos (List.mem_cons_self _ _), List.append_nil]
    · have h1 : (f k).filter (fun x => g x == gid) = [] :=
        List.filter_eq_nil_iff.2 (fun x hx hbeq => hgid ((hk x hx) ▸ eq_of_beq hbeq))
      rw [h1, List.nil_append]
      by_cases hgm : gid ∈ ks
      · rw [if_pos hgm, if_pos (List.mem_cons_of_mem _ hgm)]
      · rw [if_neg hgm, if_neg (by
          intro hm
          rcases List.mem_cons.1 hm with hh | hh
          · exact hgid hh.symm
          · exact hgm hh)]

/-- A keyed `flatMap` over strictly ascending keys is sorted by key. -/
theorem pairwise_group_flatMap {β : Type} (g : β → Nat) (f : Nat → List β) :
    ∀ keys : List Nat, List.Pairwise (· < ·) keys →
      (∀ k ∈ keys, ∀ x ∈ f k, g x = k) →
      List.Pairwise (fun a b => g a ≤ g b) (keys.flatMap f)
  | [], _, _ => by simp
  | k :: ks, hp, hf => by
    rw [List.flatMap_cons, List.pairwise_append]
    obtain ⟨hlt, hp'⟩ := List.pairwise_cons.1 hp
    have hk : ∀ x ∈ f k, g x = k := hf k (List.mem_cons_self _ _)
    refine ⟨?_, pairwise_group_flatMap g f ks hp'
      (fun k' h' => hf k' (List.mem_cons_of_mem _ h')), ?_⟩
    · exact List.pairwise_of_forall_mem_list
        (fun a ha b hb => by rw [hk a ha, hk b hb])
    · intro a ha b hb
      obtain ⟨k', hk', hbk'⟩ := List.mem_flatMap.1 hb
      rw [hk a ha, hf k' (List.mem_cons_of_mem _ hk') b hbk']
      exact Nat.le_of_lt (hlt k' hk')

/-- Projecting the internal ids out of one snapshot block recovers the
sorted bucket's ids. -/
theorem block_map_id (gid : Nat) (l : List Workspaces.WorkspaceState) :
    ((l.enum.map (fun p => Workspaces.mk_info gid p.1 p.2)).map (fun i => i.id))
      = l.map (fun w => w.internal_id) := by
  rw [List.map_map]
  have h : ((fun i : Workspaces.WorkspaceInfo => i.id) ∘
      (fun p : Nat × Workspaces.WorkspaceState => Workspaces.mk_info gid p.1 p.2))
      = (fun w : Workspaces.WorkspaceState => w.internal_id) ∘ Prod.snd := rfl
  rw [h, ← List.map_map, List.enum_map_snd]

/-- Projecting the indices out of one snapshot block yields `1, 2, …`. -/
theorem block_map_index (gid : Nat) (l : List Workspaces.WorkspaceState) :
    ((l.enum.map (fun p => Workspaces.mk_info gid p.1 p.2)).map (fun i => i.index))
      = List.range' 1 l.length := by
  rw [List.map_map]
  have h : ((fun i : Workspaces.WorkspaceInfo => i.index) ∘
      (fun p : Nat × Workspaces.WorkspaceState => Workspaces.mk_info gid p.1 p.2))
      = (fun n : Nat => n + 1) ∘ Prod.fst := rfl
  rw [h, ← List.map_map, List.enum_map_fst, List.range'_eq_map_range]
  simp [Nat.add_comm]

/-- Every entry of one snapshot block carries its block's group id. -/
theorem block_group_eq (gid : Nat) (l : List Workspaces.WorkspaceState) :
    ∀ x ∈ l.enum.map (fun p => Workspaces.mk_info gid p.1 p.2), x.group = gid := by
  intro x hx
  obtain ⟨p, _, rfl⟩ := List.mem_map.1 hx
  rfl

/-- The snapshot entries of group `gid`, in order, are exactly the sorted
bucket of `gid` (projected to internal ids). -/
theorem snapshot_filter_map_id (s : Workspaces.WaylandState) (gid : Nat) :
    ((Workspaces.snapshot s).filter (fun i => i.group == gid)).map (fun i => i.id)
      = (Workspaces.sorted_bucket s gid).map (fun w => w.internal_id) := by
  have hfil := filter_flatMap_eq_of_group (fun i : Workspaces.WorkspaceInfo => i.group)
    (fun gid' => (Workspaces.sorted_bucket s gid').enum.map
      (fun p => Workspaces.mk_info gid' p.1 p.2))
    gid (Workspaces.group_keys s) (group_keys_nodup s)
    (fun k _ => block_group_eq k _)
  rw [Workspaces.snapshot, hfil]
  by_cases hm : gid ∈ Workspaces.group_keys s
  · rw [if_pos hm, block_map_id]
  · rw [if_neg hm]
    rw [Workspaces.sorted_bucket, bucket_eq_nil hm]
    rfl

/-- The snapshot entries of group `gid` are numbered `1, 2, …` up to the
bucket size. -/
theorem snapshot_filter_map_index (s : Workspaces.WaylandState) (gid : Nat) :
    ((Workspaces.snapshot s).filter (fun i => i.group == gid)).map (fun i => i.index)
      = List.range' 1 (Workspaces.bucket s gid).length := by
  have hfil := filter_flatMap_eq_of_group (fun i : Workspaces.WorkspaceInfo => i.group)
    (fun gid' => (Workspaces.sorted_bucket s gid').enum.map
      (fun p => Workspaces.mk_info gid' p.1 p.2))
    gid (Workspaces.group_keys s) (group_keys_nodup s)
    (fun k _ => block_group_eq k _)
  rw [Workspaces.snapshot, hfil]
  by_cases hm : gid ∈ Workspaces.group_keys s
  · rw [if_pos hm, block_map_index, (sorted_bucket_perm s gid).length_eq]
  · rw [if_neg hm, bucket_eq_nil hm]
    rfl

/-- Every snapshot entry originates from a live (non-removed) registry
entry, carrying its internal id and effective group. -/
theorem snapshot_sound (s : Workspaces.WaylandState) :
    ∀ info ∈ Workspaces.snapshot s, ∃ w, w ∈ s.workspaces ∧ w.removed = false ∧
      info.id = w.internal_id ∧ info.group = Workspaces.effective_group w := by
  intro info hinfo
  obtain ⟨gid, _, hblk⟩ := List.mem_flatMap.1 hinfo
  obtain ⟨p, hp, rfl⟩ := List.mem_map.1 hblk
  have hmem : p.2 ∈ Workspaces.sorted_bucket s gid := by
    have h := List.mem_map_of_mem Prod.snd hp
    rwa [List.enum_map_snd] at h
  rw [Workspaces.sorted_bucket, List.mem_insertionSort] at hmem
  obtain ⟨hlive, hg⟩ := List.mem_filter.1 hmem
  obtain ⟨hws, hrem⟩ := List.mem_filter.1 hlive
  refine ⟨p.2, hws, by simpa using hrem, rfl, ?_⟩
  exact (eq_of_beq hg).symm

/-! ## Claim C1: snapshot grouping, ordering and indexing -/

/-- C1: at a manager `Done` the emitted snapshot is `snapshot s`; the
snapshot is grouped by effective group id (unassigned entries land in
group 0, the group ids ascend); within each group the entries are
exactly that group's live bucket (a permutation), ordered with
coordinates never decreasing lexicographically, and purely by serial
(creation order) whenever no entry of the group has coordinates; the
`index` fields within each group are `1, 2, …` up to the group's size.
The concrete case of the claim — coords `(0,0)` before `(1,0)`
regardless of creation order — is instantiated in the witness. -/
theorem workspace_snapshot_grouping (s : Workspaces.WaylandState) (gid : Nat) :
    (Workspaces.dispatch s Workspaces.WireEvent.managerDone).2
      = [Workspaces.WorkspaceEvent.Snapshot (Workspaces.snapshot s)]
    ∧ List.Sorted (fun a b => a.group ≤ b.group) (Workspaces.snapshot s)
    ∧ ((Workspaces.snapshot s).filter (fun i => i.group == gid)).map (fun i => i.id)
        = (Workspaces.sorted_bucket s gid).map (fun w => w.internal_id)
    ∧ ((Workspaces.snapshot s).filter (fun i => i.group == gid)).map (fun i => i.index)
        = List.range' 1 (Workspaces.bucket s gid).length
    ∧ (Workspaces.sorted_bucket s gid).Perm (Workspaces.bucket s gid)
    ∧ List.Sorted (fun a b => Workspaces.listLex a.coords b.coords ≠ Ordering.gt)
        (Workspaces.sorted_bucket s gid)
    ∧ ((∀ w ∈ Workspaces.bucket s gid, w.coords = []) →
        List.Sorted (fun a b => a.serial ≤ b.serial) (Workspaces.sorted_bucket s gid))
    ∧ (∀ w ∈ s.workspaces, w.removed = false → w.group_id = none →
        ∃ info ∈ Workspaces.snapshot s, info.id = w.internal_id ∧ info.group = 0) := by
  refine ⟨rfl, ?_, snapshot_filter_map_id s gid, snapshot_filter_map_index s gid,
    sorted_bucket_perm s gid, ?_, ?_, ?_⟩
  · exact pairwise_group_flatMap _ _ (Workspaces.group_keys s)
      (group_keys_pairwise_lt s) (fun k _ => block_group_eq k _)
  · exact List.Pairwise.imp (fun h => wsLe_coords h) (sorted_bucket_sorted s gid)
  · intro hemp
    refine List.Pairwise.imp_of_mem ?_ (sorted_bucket_sorted s gid)
    intro a b ha hb h
    rw [Workspaces.sorted_bucket, List.mem_insertionSort] at ha hb
    exact wsLe_serial_of_no_coords (hemp a ha) (hemp b hb) h
  · intro w hw hrem hgroup
    have hlive : w ∈ Workspaces.live s :=
      List.mem_filter.2 ⟨hw, by simp [hrem]⟩
    have heff : Workspaces.effective_group w = 0 := by
      simp [Workspaces.effective_group, hgroup]
    have hwb : w ∈ Workspaces.bucket s 0 :=
      List.mem_filter.2 ⟨hlive, by simp [heff]⟩
    have hid : w.internal_id ∈
        ((Workspaces.snapshot s).filter (fun i => i.group == 0)).map (fun i => i.id) := by
      rw [snapshot_filter_map_id s 0]
      exact List.mem_map.2 ⟨w, (List.mem_insertionSort _).2 hwb, rfl⟩
    obtain ⟨info, hmemf, hidf⟩ := List.mem_map.1 hid
    obtain ⟨hmems, hgrp⟩ := List.mem_filter.1 hmemf
    exact ⟨info, hmems, hidf, eq_of_beq hgrp⟩

/-- Witness for C1: with coordinates `[1,0]` then `[0,0]` created in that
order in one group, the snapshot indexes `(0,0)` as 1 and `(1,0)` as 2;
with no coordinates anywhere, the bucket order is the serial (creation)
order. -/
theorem workspace_snapshot_grouping_witness :
    ((Workspaces.snapshot (Workspaces.run Workspaces.demo_coords_events).1).filter
        (fun i => i.group == 1)).map (fun i => (i.id, i.index))
      = [(2, 1), (1, 2)]
    ∧ List.Sorted (fun a b => a.serial ≤ b.serial)
        (Workspaces.sorted_bucket (Workspaces.run Workspaces.demo_serial_events).1 1) := by
  constructor
  · have h := (workspace_snapshot_grouping
      (Workspaces.run Workspaces.demo_coords_events).1 1).2.2.1
    decide
  · exact (workspace_snapshot_grouping
      (Workspaces.run Workspaces.demo_serial_events).1 1).2.2.2.2.2.2.1 (by decide)

/-! ## Internal-id invariants of the workspace registry -/

/-- The id invariants survive an entry update that keeps internal ids. -/
theorem ids_invariant_updateFirst (s : Workspaces.WaylandState)
    (p : Workspaces.WorkspaceState → Bool)
    (f : Workspaces.WorkspaceState → Workspaces.WorkspaceState)
    (h1 : (s.workspaces.map (fun w => w.internal_id)).Nodup)
    (h2 : ∀ i ∈ s.workspaces.map (fun w => w.internal_id), i < s.next_workspace_id)
    (hf : ∀ x, (f x).internal_id = x.internal_id) :
    (((updateFirst p f s.workspaces).map (fun w => w.internal_id)).Nodup)
    ∧ ∀ i ∈ (updateFirst p f s.workspaces).map (fun w => w.internal_id),
        i < s.next_workspace_id := by
  rw [map_updateFirst hf]
  exact ⟨h1, h2⟩

/-- The id invariants survive pushing a fresh entry carrying the counter
value (the counter then advances). -/
theorem ids_invariant_push (s : Workspaces.WaylandState)
    (x : Workspaces.WorkspaceState)
    (h1 : (s.workspaces.map (fun w => w.internal_id)).Nodup)
    (h2 : ∀ i ∈ s.workspaces.map (fun w => w.internal_id), i < s.next_workspace_id)
    (hx : x.internal_id = s.next_workspace_id) :
    (((s.workspaces ++ [x]).map (fun w => w.internal_id)).Nodup)
    ∧ ∀ i ∈ (s.workspaces ++ [x]).map (fun w => w.internal_id),
        i < s.next_workspace_id + 1 := by
  constructor
  · rw [List.map_append, List.nodup_append]
    refine ⟨h1, List.nodup_singleton _, ?_⟩
    intro a ha hb
    simp only [List.map_cons, List.map_nil, List.mem_singleton] at hb
    have := h2 a ha
    omega
  · intro i hi
    rw [List.map_append] at hi
    rcases List.mem_append.1 hi with hh | hh
    · exact Nat.lt_succ_of_lt (h2 i hh)
    · simp only [List.map_cons, List.map_nil, List.mem_singleton] at hh
      omega

/-- One dispatch step preserves distinctness of internal ids and the
bound by the id counter. -/
theorem dispatch_ids_invariant (s : Workspaces.WaylandState)
    (e : Workspaces.WireEvent)
    (h1 : (s.workspaces.map (fun w => w.internal_id)).Nodup)
    (h2 : ∀ i ∈ s.workspaces.map (fun w => w.internal_id), i < s.next_workspace_id) :
    (((Workspaces.dispatch s e).1.workspaces.map (fun w => w.internal_id)).Nodup)
    ∧ ∀ i ∈ (Workspaces.dispatch s e).1.workspaces.map (fun w => w.internal_id),
        i < (Workspaces.dispatch s e).1.next_workspace_id := by
  cases e with
  | managerWorkspaceGroup h => exact ⟨h1, h2⟩
  | managerWorkspace h =>
    apply ids_invariant_push s _ h1 h2
    rfl
  | managerDone =>
    constructor
    · exact List.Nodup.sublist ((List.filter_sublist _).map _) h1
    · intro i hi
      exact h2 i (((List.filter_sublist _).map _).subset hi)
  | managerFinished => exact ⟨h1, h2⟩
  | groupCapabilities h c => exact ⟨h1, h2⟩
  | groupOutputEnter h o => exact ⟨h1, h2⟩
  | groupOutputLeave h o => exact ⟨h1, h2⟩
  | groupRemoved h => exact ⟨h1, h2⟩
  | groupWorkspaceEnter gh wh =>
    simp only [Workspaces.dispatch]
    split
    · exact ⟨h1, h2⟩
    · apply ids_invariant_updateFirst s _ _ h1 h2
      intro x
      rfl
  | groupWorkspaceLeave gh wh =>
    simp only [Workspaces.dispatch]
    split
    · exact ⟨h1, h2⟩
    · apply ids_invariant_updateFirst s _ _ h1 h2
      intro x
      rfl
  | wsId h v =>
    apply ids_invariant_updateFirst s _ _ h1 h2
    intro x
    rfl
  | wsName h v =>
    apply ids_invariant_updateFirst s _ _ h1 h2
    intro x
    rfl
  | wsCoordinates h bytes =>
    apply ids_invariant_updateFirst s _ _ h1 h2
    intro x
    rfl
  | wsState h v =>
    apply ids_invariant_updateFirst s _ _ h1 h2
    intro x
    rfl
  | wsCapabilities h v =>
    apply ids_invariant_updateFirst s _ _ h1 h2
    intro x
    rfl
  | wsRemoved h =>
    apply ids_invariant_updateFirst s _ _ h1 h2
    intro x
    rfl

/-- The id invariants hold along any run from a state satisfying them. -/
theorem run_from_ids_invariant :
    ∀ (events : List Workspaces.WireEvent) (s : Workspaces.WaylandState)
      (acc : List Workspaces.WorkspaceEvent),
      (s.workspaces.map (fun w => w.internal_id)).Nodup →
      (∀ i ∈ s.workspaces.map (fun w => w.internal_id), i < s.next_workspace_id) →
      (((Workspaces.run_from (s, acc) events).1.workspaces.map
          (fun w => w.internal_id)).Nodup)
      ∧ ∀ i ∈ (Workspaces.run_from (s, acc) events).1.workspaces.map
          (fun w => w.internal_id),
          i < (Workspaces.run_from (s, acc) events).1.next_workspace_id
  | [], _, _, h1, h2 => ⟨h1, h2⟩
  | e :: es, s, acc, h1, h2 => by
    obtain ⟨g1, g2⟩ := dispatch_ids_invariant s e h1 h2
    exact run_from_ids_invariant es _ _ g1 g2

/-- Internal workspace ids are distinct (and below the counter) in every
reachable registry state. -/
theorem run_ids_invariant (events : List Workspaces.WireEvent) :
    (((Workspaces.run events).1.workspaces.map (fun w => w.internal_id)).Nodup)
    ∧ ∀ i ∈ (Workspaces.run events).1.workspaces.map (fun w => w.internal_id),
        i < (Workspaces.run events).1.next_workspace_id :=
  run_from_ids_invariant events Workspaces.initial []
    (by simp [Workspaces.initial]) (by simp [Workspaces.initial])

/-! ## Claim C3: removed entries and snapshots -/

/-- C3: in every reachable registry state, an entry flagged `removed`
never appears in the snapshot the next manager `Done` emits (whatever
events, including other `Done`s, preceded); the `Done` emits exactly the
snapshot built from the still-unpurged registry, and only the post-`Done`
registry has the flagged entry physically deleted. -/
theorem removed_never_in_snapshot (events : List Workspaces.WireEvent)
    (w : Workspaces.WorkspaceState)
    (hmem : w ∈ (Workspaces.run events).1.workspaces)
    (hrem : w.removed = true) :
    (∀ info ∈ Workspaces.snapshot (Workspaces.run events).1,
      info.id ≠ w.internal_id)
    ∧ (Workspaces.dispatch (Workspaces.run events).1
        Workspaces.WireEvent.managerDone).2
        = [Workspaces.WorkspaceEvent.Snapshot
            (Workspaces.snapshot (Workspaces.run events).1)]
    ∧ w ∉ (Workspaces.dispatch (Workspaces.run events).1
        Workspaces.WireEvent.managerDone).1.workspaces := by
  obtain ⟨hnd, _⟩ := run_ids_invariant events
  refine ⟨?_, rfl, ?_⟩
  · intro info hinfo heq
    obtain ⟨w', hw', hrem', hid, _⟩ := snapshot_sound _ info hinfo
    have hww : w' = w := by
      refine List.inj_on_of_nodup_map hnd hw' hmem ?_
      rw [← hid, heq]
    rw [hww, hrem] at hrem'
    exact Bool.noConfusion hrem'
  · intro hmem'
    have hkeep : (!w.removed) = true := (List.mem_filter.1 hmem').2
    rw [hrem] at hkeep
    exact Bool.noConfusion hkeep

/-- Witness for C3 at a concrete removed workspace. -/
theorem removed_never_in_snapshot_witness :
    (∀ info ∈ Workspaces.snapshot (Workspaces.run Workspaces.demo_removed_events).1,
      info.id ≠ Workspaces.demo_removed_entry.internal_id)
    ∧ Workspaces.demo_removed_entry ∉
        (Workspaces.dispatch (Workspaces.run Workspaces.demo_removed_events).1
          Workspaces.WireEvent.managerDone).1.workspaces := by
  obtain ⟨h1, _, h3⟩ := removed_never_in_snapshot Workspaces.demo_removed_events
    Workspaces.demo_removed_entry (by decide) (by decide)
  exact ⟨h1, h3⟩
